import Mathlib

/-!
Verification of the ContractInfoMCP contract-inspection pipeline.

Each Python source function of the repository is shallowly embedded as an
executable Lean definition operating on explicit data (strings as `List Char`
at the core, JSON dictionaries as structures with `Option` fields, external
effects as oracle parameters, uncaught exceptions as `Except.error`).
Theorems state and settle the specification claims about those definitions.
-/

namespace ContractInspector

/-! ## Character helpers

`[a-fA-F0-9]` from the validation regex, embedded as code-point ranges
(`0-9` = 48..57, `a-f` = 97..102, `A-F` = 65..70). -/

/-- One character of the regex class `[a-fA-F0-9]`. -/
def isHexChar (c : Char) : Bool :=
  (48 ≤ c.toNat && c.toNat ≤ 57) || (97 ≤ c.toNat && c.toNat ≤ 102)
    || (65 ≤ c.toNat && c.toNat ≤ 70)

/-- A lowercase hex character: digit or `a`..`f` (48..57 / 97..102). -/
def isHexLower (c : Char) : Bool :=
  (48 ≤ c.toNat && c.toNat ≤ 57) || (97 ≤ c.toNat && c.toNat ≤ 102)

/-! ## `utils.is_valid_ethereum_address`

Python source:
```
if not address: return False
if not re.match(r'^0x[a-fA-F0-9]{40}$', address): return False
return True
```
Python's `re` module gives `$` the semantics "matches at the end of the
string *or just before a newline at the end of the string*", so the regex
accepts both `0x` + 40 hex digits and `0x` + 40 hex digits + `'\n'`.
The embedding reproduces exactly that. -/

/-- `re.match(r'^0x[a-fA-F0-9]{40}$', ·)` on the character list of the input:
`0x`, then 40 characters of `[a-fA-F0-9]`, then `$` (end of string, or a
single final newline). -/
def regexAddrMatch (cs : List Char) : Bool :=
  match cs with
  | '0' :: 'x' :: rest =>
      (rest.length == 40 && rest.all isHexChar)
        || (rest.length == 41 && rest.dropLast.all isHexChar
              && rest.getLast? == some '\n')
  | _ => false

/-- `utils.is_valid_ethereum_address`: empty strings are rejected first
(`if not address`), then the regex decides. -/
def is_valid_ethereum_address (s : String) : Bool :=
  if s.data.isEmpty then false else regexAddrMatch s.data

/-- Modelled from the spec: `AddressCodec.validate` — true iff the string is
exactly `0x` followed by 40 hexadecimal characters (case-insensitive).
Stated from the spec's words for comparison with the source embedding. -/
def specValidAddress (s : String) : Bool :=
  s.data.length == 42 &&
    (match s.data with
     | '0' :: 'x' :: rest => rest.all isHexChar
     | _ => false)

/-! ## `utils.to_checksum_address`

Python source:
```
try:
    return Web3.to_checksum_address(address)
except Exception:
    return address
```
`Web3.to_checksum_address` (eth_utils) validates that the input is a hex
address — 40 hex characters with or without a `0x` prefix — raising
otherwise, lowercases the body, and re-cases character `i` to uppercase
exactly when nibble `i` of the keccak-256 hash of the lowercase body
exceeds 7 (EIP-55).  The hash is an opaque external algorithm here: the
embedding is parameterised by `hash : List Char → Nat → Nat` giving the
nibble of the digest of the lowercase body at each index. -/

/-- The hex body of an address-like string: the part after an optional
leading `0x`. -/
def bodyChars (cs : List Char) : List Char :=
  match cs with
  | '0' :: 'x' :: rest => rest
  | _ => cs

/-- `eth_utils.is_address` on strings: 40 hex characters, with or without
a `0x` prefix (case-insensitive body).  `Web3.to_checksum_address` raises
on anything else. -/
def isAddrLike (cs : List Char) : Bool :=
  (bodyChars cs).length == 40 && (bodyChars cs).all isHexChar

/-- EIP-55 re-casing of the (already lowercase) `body`, driven by the
digest nibbles `hash body i`: uppercase the character exactly when the
nibble exceeds 7.  `i` is the running index into the digest. -/
def encodeBody (hash : List Char → Nat → Nat) (body : List Char) :
    Nat → List Char → List Char
  | _, [] => []
  | i, c :: rest =>
      (if 7 < hash body i then c.toUpper else c) :: encodeBody hash body (i + 1) rest

/-- `Web3.to_checksum_address` itself: `none` models the raised exception
on non-address input; on success, `0x` plus the re-cased lowercase body. -/
def web3ChecksumAddress (hash : List Char → Nat → Nat) (cs : List Char) :
    Option (List Char) :=
  if isAddrLike cs then
    let body := (bodyChars cs).map Char.toLower
    some ('0' :: 'x' :: encodeBody hash body 0 body)
  else none

/-- `utils.to_checksum_address`: the `except` branch returns the input
unchanged, so the wrapper is total. -/
def to_checksum_address (hash : List Char → Nat → Nat) (s : String) : String :=
  match web3ChecksumAddress hash s.data with
  | some out => String.mk out
  | none => s

/-! ## `utils.retry_with_backoff`

Python source (the loop, with `func` called once per iteration):
```
last_exception = None
for attempt in range(max_retries + 1):
    try:
        return func(*args, **kwargs)
    except Exception as e:
        last_exception = e
        if attempt == max_retries:
            break
        delay = base_delay * (backoff_factor ** attempt)
        await asyncio.sleep(delay)
raise last_exception
```
The embedding takes the attempt oracle `b : Nat → Except ε α` (result of
the `attempt`-th call of `func`), and returns the final result, the list of
slept delays (`asyncio.sleep` arguments, as exact rationals) and the number
of attempts made.  `fuel` is the number of loop iterations still available,
so `fuel = max_retries + 1 - attempt`; the `fuel = 0` base case is the
unreachable empty loop (Python would raise `None` there — `max_retries` is
a natural number here, so `range(max_retries + 1)` is never empty). -/

/-- `Except.isOk` as a plain boolean. -/
def isOkE {ε α : Type} : Except ε α → Bool
  | .ok _ => true
  | .error _ => false

/-- One run of the retry loop starting at index `attempt` with `fuel`
iterations left.  Returns (result, delays slept, attempts made). -/
def retryFuel {ε α : Type} [Inhabited ε] (b : Nat → Except ε α) (base f : ℚ) :
    (attempt : Nat) → (fuel : Nat) → Except ε α × List ℚ × Nat
  | _, 0 => (.error default, [], 0)
  | attempt, fuel + 1 =>
      match b attempt with
      | .ok v => (.ok v, [], 1)
      | .error e =>
          match fuel with
          | 0 => (.error e, [], 1)
          | fuel' + 1 =>
              let r := retryFuel b base f (attempt + 1) (fuel' + 1)
              (r.1, base * f ^ attempt :: r.2.1, r.2.2 + 1)

/-- `utils.retry_with_backoff`. -/
def retry_with_backoff {ε α : Type} [Inhabited ε] (b : Nat → Except ε α)
    (max_retries : Nat) (base_delay backoff_factor : ℚ) :
    Except ε α × List ℚ × Nat :=
  retryFuel b base_delay backoff_factor 0 (max_retries + 1)

/-! ## `etherscan_client.EtherscanClient._make_request`

Python source:
```
async with self.throttler:
    params.update({"apikey": ..., "chainid": ...})
    def make_sync_request(): ...
    return await retry_with_backoff(make_sync_request, max_retries=config.max_retries)
```
The whole retry loop runs inside a single `async with self.throttler`
block, i.e. under one rate-limiter slot.  The embedding records the
observable event sequence: one `acquire` for entering the throttler
context, then one `attempt i` per call of `make_sync_request` made by the
retry loop.  The HTTP response itself is abstracted by the attempt oracle
`b` (the query-parameter dictionary does not influence the event order and
is not modelled). -/

/-- Observable events of one `_make_request` call. -/
inductive ReqEv where
  | acquire
  | attempt (n : Nat)
deriving DecidableEq, Repr

/-- The attempt events of a retry run that made `n` attempts:
`attempt 0, …, attempt (n-1)`. -/
def attemptEvents (n : Nat) : List ReqEv :=
  (List.range n).map ReqEv.attempt

/-- `EtherscanClient._make_request`: acquire one throttler slot, then run
the full retry loop under it.  Returns the result and the event trace. -/
def make_request {α : Type} (b : Nat → Except String α) (max_retries : Nat) :
    Except String α × List ReqEv :=
  let r := retry_with_backoff b max_retries 1 2
  (r.1, ReqEv.acquire :: attemptEvents r.2.2)

/-! ## `web3_client.Web3Client.call_view_function` and
`batch_call_view_functions`

`call_view_function` resolves the function object with
`getattr(contract.functions, name, None)` (no network traffic); if absent
it returns a `函数 … 不存在` error outcome.  Otherwise it runs
`func().call()` under `retry_with_backoff(…, max_retries=config.max_retries)`
and classifies the escaping exception (`ContractLogicError`,
`Web3Exception`, anything else) into an error outcome; a result becomes a
success outcome.  The external call is modelled by an oracle: either the
name is not a member of the contract handle, or it is callable with an
attempt-indexed result sequence. -/

/-- A decoded Python value as it appears in call results.  `raw` stands
for any other decoded object (tuples, byte strings, …), which the claims
never inspect beyond identity. -/
inductive Value where
  | int (n : Int)
  | str (s : String)
  | vbool (b : Bool)
  | raw (tag : Nat)
deriving DecidableEq, Repr

/-- The exception an attempt of `func().call()` can raise, by the three
classes `call_view_function` distinguishes. -/
inductive PyExn where
  | contractLogic (msg : String)
  | web3 (msg : String)
  | other (msg : String)
deriving DecidableEq, Repr, Inhabited

/-- How one function name behaves on the contract handle: missing from
`contract.functions`, or callable with the given per-attempt results. -/
inductive FuncBehavior where
  | notFound
  | callable (attempts : Nat → Except PyExn Value)

/-- The dictionary `call_view_function` returns. -/
structure CallOutcome where
  function_name : String
  status : String
  result? : Option Value := none
  error? : Option String := none
deriving DecidableEq, Repr

/-- `Web3Client.call_view_function`. -/
def call_view_function (max_retries : Nat) (fb : FuncBehavior)
    (function_name : String) : CallOutcome :=
  match fb with
  | .notFound =>
      { function_name, status := "error",
        error? := some ("函数 " ++ function_name ++ " 不存在") }
  | .callable attempts =>
      match (retry_with_backoff attempts max_retries 1 2).1 with
      | .ok v => { function_name, status := "success", result? := some v }
      | .error (.contractLogic m) =>
          { function_name, status := "error", error? := some ("合约逻辑错误: " ++ m) }
      | .error (.web3 m) =>
          { function_name, status := "error", error? := some ("Web3 错误: " ++ m) }
      | .error (.other m) =>
          { function_name, status := "error", error? := some ("未知错误: " ++ m) }

/-- Behaviour of one task in the batch.  `escape` models an exception
escaping the coroutine itself — `call_view_function` catches every
`Exception`, but `asyncio.gather(..., return_exceptions=True)` still
guards that branch, so the model keeps it reachable. -/
inductive TaskBehavior where
  | normal (fb : FuncBehavior)
  | escape (msg : String)

/-- One gathered task result: the raised exception or the outcome
dictionary. -/
def runTask (max_retries : Nat) (tb : TaskBehavior) (name : String) :
    Except String CallOutcome :=
  match tb with
  | .escape m => .error m
  | .normal fb => .ok (call_view_function max_retries fb name)

/-- The post-processing loop of `batch_call_view_functions`: an exception
in a slot becomes a `调用异常` error outcome for that slot's name. -/
def postProcessTask (name : String) (r : Except String CallOutcome) : CallOutcome :=
  match r with
  | .error m => { function_name := name, status := "error",
                  error? := some ("调用异常: " ++ m) }
  | .ok o => o

/-- `Web3Client.batch_call_view_functions`: one task per input name
(concurrent fan-out, gathered in input order), then the post-processing
loop pairs `results[i]` with `function_names[i]`. -/
def batch_call_view_functions (max_retries : Nat) (env : String → TaskBehavior)
    (function_names : List String) : List CallOutcome :=
  let results := function_names.map (fun n => runTask max_retries (env n) n)
  List.zipWith postProcessTask function_names results

/-- Whether a task behaviour leads to a success outcome: the name is
callable and the retry budget reaches a successful attempt. -/
def behaviorSucceeds (max_retries : Nat) (tb : TaskBehavior) : Bool :=
  match tb with
  | .escape _ => false
  | .normal .notFound => false
  | .normal (.callable attempts) =>
      isOkE (retry_with_backoff attempts max_retries 1 2).1

/-! ## ABI entries and `utils.extract_view_functions`

An ABI entry is a JSON dictionary; every key may be absent, so each field
is an `Option` (``item.get(k)`` is `none` when `k` is missing).
`extract_view_functions` keeps entries with `type == "function"`,
`stateMutability in ["view", "pure"]` and `len(item.get("inputs", [])) == 0`,
appending them in ABI order. -/

/-- One typed parameter of an ABI entry (only its `type` key matters). -/
structure AbiParam where
  type? : Option String := none
deriving DecidableEq, Repr

/-- One decoded ABI entry. -/
structure AbiEntry where
  type? : Option String := none
  name? : Option String := none
  stateMutability? : Option String := none
  inputs? : Option (List AbiParam) := none
  outputs? : Option (List AbiParam) := none
deriving DecidableEq, Repr

/-- The selection condition of the loop body of `extract_view_functions`. -/
def isInvocableEntry (item : AbiEntry) : Bool :=
  item.type? == some "function"
    && (item.stateMutability? == some "view" || item.stateMutability? == some "pure")
    && (item.inputs?.getD []).length == 0

/-- `utils.extract_view_functions`: the accumulating loop, appending each
matching item in declaration order. -/
def extract_view_functions (abi : List AbiEntry) : List AbiEntry :=
  match abi with
  | [] => []
  | item :: rest =>
      if isInvocableEntry item then item :: extract_view_functions rest
      else extract_view_functions rest

/-! ## `contract_analyzer.ContractAnalyzer._format_large_number` and the
classification step of `analyze_contract`

```
if value >= 10**18:   return f"{value / 10**18:.6f} Ether"
elif value >= 10**15: return f"{value / 10**15:.6f} milli-Ether"
elif value >= 10**12: return f"{value / 10**12:.6f} micro-Ether"
else:                 return str(value)
```
Python divides as IEEE doubles and formats with `:.6f`.  The embedding
renders the exact rational `value / 10^k` to six decimal places with
round-half-to-even, which coincides with the float pipeline whenever the
quotient is exactly representable (in particular on every value the claims
pin down). -/

/-- Left-pad a digit list with `'0'` to length `n`. -/
def padZeros (s : List Char) (n : Nat) : List Char :=
  List.replicate (n - s.length) '0' ++ s

/-- Render `num / den` with exactly six digits after the decimal point
(round half to even). -/
def fixed6 (num den : Nat) : String :=
  let scaled := num * 1000000
  let q := scaled / den
  let r := scaled % den
  let q' := if den < 2 * r || (2 * r == den && q % 2 == 1) then q + 1 else q
  toString (q' / 1000000) ++ "." ++ String.mk (padZeros (toString (q' % 1000000)).data 6)

/-- `ContractAnalyzer._format_large_number`. -/
def format_large_number (value : Int) : String :=
  if 10 ^ 18 ≤ value then fixed6 value.toNat (10 ^ 18) ++ " Ether"
  else if 10 ^ 15 ≤ value then fixed6 value.toNat (10 ^ 15) ++ " milli-Ether"
  else if 10 ^ 12 ≤ value then fixed6 value.toNat (10 ^ 12) ++ " micro-Ether"
  else toString value

/-- `ContractAnalyzer._get_output_type`: `void` for zero outputs, the sole
output's `type` (default `"unknown"`) for one, `tuple` for more. -/
def get_output_type (func_info : AbiEntry) : String :=
  match func_info.outputs?.getD [] with
  | [] => "void"
  | [o] => o.type?.getD "unknown"
  | _ => "tuple"

/-- Python's `str.startswith`, as an executable character-list test. -/
def pyStartsWith (s p : String) : Bool :=
  p.data.isPrefixOf s.data

/-- `str(·)` on a decoded value, as used by the `address` branch. -/
def pyStr (v : Value) : String :=
  match v with
  | .int n => toString n
  | .str s => s
  | .vbool b => if b then "True" else "False"
  | .raw t => "<object " ++ toString t ++ ">"

/-- A formatted successful entry of the report
(`successful_functions[i]`). -/
structure SuccessEntry where
  function_name : String
  result? : Option Value
  type : String
  status : String := "success"
  formatted_value? : Option String := none
  checksum_address? : Option String := none
deriving DecidableEq, Repr

/-- A failed entry of the report (`failed_functions[i]`). -/
structure FailedEntry where
  function_name : String
  error : String
  status : String := "failed"
deriving DecidableEq, Repr

/-- The per-outcome success branch of step 7 of `analyze_contract`:
build the base entry, then
```
if output_type.startswith("uint") and isinstance(result, int):
    if result > 10**15: attach formatted_value
elif output_type == "address": attach checksum_address
```
-/
def classifySuccess (hash : List Char → Nat → Nat) (func_info : AbiEntry)
    (r : CallOutcome) : SuccessEntry :=
  let output_type := get_output_type func_info
  let base : SuccessEntry :=
    { function_name := r.function_name, result? := r.result?, type := output_type }
  let v := r.result?.getD (.raw 0)
  match v with
  | .int n =>
      if pyStartsWith output_type "uint" then
        if 10 ^ 15 < n then
          { base with formatted_value? := some (format_large_number n) }
        else base
      else if output_type == "address" then
        { base with
          checksum_address? := some (to_checksum_address hash (pyStr (.int n))) }
      else base
  | v' =>
      if output_type == "address" then
        { base with checksum_address? := some (to_checksum_address hash (pyStr v')) }
      else base

/-- The failure branch of step 7: relabel with status `failed` and the
outcome's error text (default `未知错误`). -/
def classifyFailed (r : CallOutcome) : FailedEntry :=
  { function_name := r.function_name, error := r.error?.getD "未知错误" }

/-- Step 7's partition loop over `zip view_functions call_results`,
preserving order within each of the two lists. -/
def classifyAll (hash : List Char → Nat → Nat) :
    List (AbiEntry × CallOutcome) → List SuccessEntry × List FailedEntry
  | [] => ([], [])
  | (f, r) :: rest =>
      let p := classifyAll hash rest
      if r.status == "success" then (classifySuccess hash f r :: p.1, p.2)
      else (p.1, classifyFailed r :: p.2)

/-! ## `contract_analyzer.ContractAnalyzer.analyze_contract`

The orchestrator, embedded as a pure function of the analyzer state and an
oracle for every external interaction.  It returns the report (or, as
`Except.error`, an uncaught Python exception) together with the trace of
ChainClient/MetadataClient operations it performed, in program order.
`datetime.now()` timestamps carry no claim content and are omitted from
the report structure. -/

/-- External operations performed by the pipeline, in program order.
`createInstance` is the `w3.eth.contract(...)` construction (a ChainClient
operation, though it sends no traffic itself). -/
inductive NetCall where
  | verifyConnection
  | getCode
  | fetchAbi
  | createInstance
  | invoke (name : String)
  | fetchSource
deriving DecidableEq, Repr

/-- Analyzer state and external-world oracle for one `analyze_contract`
call. -/
structure AnalyzerEnv where
  /-- `self._initialized` at entry: a previous call already verified the
  connection. -/
  initialized : Bool
  /-- What `verify_connection` would conclude if run. -/
  connectionOk : Bool
  /-- What `is_contract_address` returns for the checksummed address. -/
  isContract : Bool
  /-- What `get_contract_abi` returns (`none` = `None`). -/
  abi? : Option (List AbiEntry)
  /-- Whether `get_contract_instance` returns a handle (vs `None`). -/
  instanceOk : Bool
  /-- `config.max_retries` used by the per-call retry policy. -/
  max_retries : Nat
  /-- Behaviour of each function name on the contract handle. -/
  callEnv : String → TaskBehavior
  /-- What `get_contract_name` returns (`none` = `None`). -/
  contractName? : Option String

/-- `analysis_summary` of a success report. -/
structure Summary where
  total_view_functions : Nat
  successful_calls : Nat
  failed_calls : Nat
deriving DecidableEq, Repr

/-- The report dictionary returned by `analyze_contract`.  Absent keys are
`none`; `failed_functions? = some none` would be meaningless, so the field
is `none` both when the key is absent and when it is `None` — the success
report always carries the key, with `none` encoding Python `None`. -/
structure Report where
  status : String
  error? : Option String := none
  message? : Option String := none
  contract_address? : Option String := none
  contract_name? : Option String := none
  total_functions? : Option Nat := none
  analysis_summary? : Option Summary := none
  successful_functions? : Option (List SuccessEntry) := none
  failed_functions? : Option (List FailedEntry) := none
deriving DecidableEq, Repr

/-- `[func["name"] for func in view_functions]`: `none` models the
`KeyError` raised when an entry has no `name` key. -/
def getNames : List AbiEntry → Option (List String)
  | [] => some []
  | f :: rest =>
      match f.name?, getNames rest with
      | some n, some ns => some (n :: ns)
      | _, _ => none

/-- The network calls made by the batch: one contract invocation per name
whose function object exists (a `notFound` name returns before any
traffic).  Concurrent dispatch is recorded in input order. -/
def batchTrace (env : String → TaskBehavior) (names : List String) : List NetCall :=
  names.filterMap (fun n =>
    match env n with
    | .normal .notFound => none
    | _ => some (NetCall.invoke n))

/-- `ContractAnalyzer.analyze_contract`.  `hash` is the keccak oracle used
by `to_checksum_address`. -/
def analyze_contract (hash : List Char → Nat → Nat) (env : AnalyzerEnv)
    (contract_address : String) : Except String Report × List NetCall :=
  -- initialization check: `if not await self.initialize()`
  let initTrace : List NetCall := if env.initialized then [] else [.verifyConnection]
  if ¬ (env.initialized || env.connectionOk) then
    (.ok { status := "error", error? := some "分析器初始化失败" }, initTrace)
  -- step 1: address-format validation
  else if ¬ is_valid_ethereum_address contract_address then
    (.ok { status := "error",
           error? := some ("无效的以太坊地址格式: " ++ contract_address) }, initTrace)
  else
    let checksum_address := to_checksum_address hash contract_address
    let t2 := initTrace ++ [NetCall.getCode]
    -- step 2: contract-address check
    if ¬ env.isContract then
      (.ok { status := "error",
             error? := some ("地址 " ++ checksum_address ++ " 不是合约地址") }, t2)
    else
      let t3 := t2 ++ [NetCall.fetchAbi]
      -- step 3: ABI fetch; `if not abi` is true for `None` and for `[]`
      match env.abi?.filter (fun l => ¬ l.isEmpty) with
      | none =>
          (.ok { status := "error",
                 error? := some "无法获取合约 ABI，可能合约未验证",
                 contract_address? := some checksum_address }, t3)
      | some abi =>
          -- step 4: filter the zero-argument view functions
          let view_functions := extract_view_functions abi
          if view_functions.isEmpty then
            (.ok { status := "warning",
                   message? := some "合约中没有找到无参数的 view 函数",
                   contract_address? := some checksum_address,
                   total_functions? :=
                     some (abi.filter (fun f => f.type? == some "function")).length },
             t3)
          else
            let t4 := t3 ++ [NetCall.createInstance]
            -- step 5: contract handle
            if ¬ env.instanceOk then
              (.ok { status := "error", error? := some "创建合约实例失败",
                     contract_address? := some checksum_address }, t4)
            else
              -- step 6: function names (KeyError on a nameless entry)
              match getNames view_functions with
              | none => (.error "KeyError: 'name'", t4)
              | some function_names =>
                  let t5 := t4 ++ batchTrace env.callEnv function_names
                  let call_results :=
                    batch_call_view_functions env.max_retries env.callEnv function_names
                  -- step 7: classify and partition
                  let p := classifyAll hash (view_functions.zip call_results)
                  let t6 := t5 ++ [NetCall.fetchSource]
                  (.ok { status := "success",
                         contract_address? := some checksum_address,
                         contract_name? := env.contractName?,
                         analysis_summary? := some
                           { total_view_functions := view_functions.length,
                             successful_calls := p.1.length,
                             failed_calls := p.2.length },
                         successful_functions? := some p.1,
                         failed_functions? := if p.2.isEmpty then none else some p.2 },
                   t6)

/-- A sample analyzer environment: initialized, the address hosts a
verified contract with the single view function `totalSupply() -> uint256`
returning `10^21`. -/
def sampleEnv : AnalyzerEnv :=
  { initialized := true, connectionOk := true, isContract := true,
    abi? := some [{ type? := some "function", name? := some "totalSupply",
                    stateMutability? := some "view", inputs? := some [],
                    outputs? := some [{ type? := some "uint256" }] }],
    instanceOk := true, max_retries := 3,
    callEnv := fun _ => .normal (.callable fun _ => .ok (.int (10 ^ 21))),
    contractName? := some "Token" }

/-- The report `analyze_contract` computes on `sampleEnv` for the all-`a`
address (the all-zero digest oracle leaves it lowercase). -/
def sampleReport : Report :=
  { status := "success",
    contract_address? := some "0xaaaaaaaaaaaaaaaaaaaaaaaaaaaaaaaaaaaaaaaa",
    contract_name? := some "Token",
    analysis_summary? := some
      { total_view_functions := 1, successful_calls := 1, failed_calls := 0 },
    successful_functions? := some
      [{ function_name := "totalSupply", result? := some (.int (10 ^ 21)),
         type := "uint256", formatted_value? := some "1000.000000 Ether" }],
    failed_functions? := none }

/-! ## Helper lemmas -/

/-- `extract_view_functions` is the filter by its loop condition. -/
theorem extract_eq_filter (abi : List AbiEntry) :
    extract_view_functions abi = abi.filter isInvocableEntry := by
  induction abi with
  | nil => rfl
  | cons item rest ih =>
      by_cases h : isInvocableEntry item <;>
        simp [extract_view_functions, List.filter, h, ih]

/-- The two halves of the step-7 partition have lengths summing to the
number of classified pairs. -/
theorem classifyAll_length (hash : List Char → Nat → Nat)
    (l : List (AbiEntry × CallOutcome)) :
    (classifyAll hash l).1.length + (classifyAll hash l).2.length = l.length := by
  induction l with
  | nil => rfl
  | cons pr rest ih =>
      obtain ⟨f, r⟩ := pr
      by_cases h : r.status == "success" <;> simp [classifyAll, h] <;> omega

/-- `classifySuccess` always stamps status `success` (no branch touches
the status field). -/
theorem classifySuccess_status (hash : List Char → Nat → Nat)
    (f : AbiEntry) (r : CallOutcome) :
    (classifySuccess hash f r).status = "success" := by
  simp only [classifySuccess]
  repeat' split
  all_goals rfl

/-- Every entry of the failed half carries status `failed`; every entry of
the successful half carries status `success`. -/
theorem classifyAll_status (hash : List Char → Nat → Nat)
    (l : List (AbiEntry × CallOutcome)) :
    ((classifyAll hash l).2.all fun e => e.status == "failed")
      ∧ ((classifyAll hash l).1.all fun e => e.status == "success") := by
  induction l with
  | nil => exact ⟨rfl, rfl⟩
  | cons pr rest ih =>
      obtain ⟨f, r⟩ := pr
      by_cases h : r.status == "success"
      · refine ⟨by simpa [classifyAll, h] using ih.1, ?_⟩
        simpa [classifyAll, h, classifySuccess_status] using ih.2
      · refine ⟨?_, by simpa [classifyAll, h] using ih.2⟩
        simpa [classifyAll, h, classifyFailed] using ih.1

/-- One-step unfolding of `retryFuel` when the current attempt succeeds. -/
theorem retryFuel_ok {ε α : Type} [Inhabited ε] {b : Nat → Except ε α}
    (base f : ℚ) {a : Nat} {v : α} (fuel : Nat) (h : b a = .ok v) :
    retryFuel b base f a (fuel + 1) = (.ok v, [], 1) := by
  rw [retryFuel, h]

/-- One-step unfolding of `retryFuel` when the final attempt fails. -/
theorem retryFuel_err_last {ε α : Type} [Inhabited ε] {b : Nat → Except ε α}
    (base f : ℚ) {a : Nat} {e : ε} (h : b a = .error e) :
    retryFuel b base f a 1 = (.error e, [], 1) := by
  rw [retryFuel, h]

/-- One-step unfolding of `retryFuel` when a non-final attempt fails: sleep
`base * f ^ a` and continue. -/
theorem retryFuel_err_step {ε α : Type} [Inhabited ε] {b : Nat → Except ε α}
    (base f : ℚ) {a : Nat} {e : ε} (n : Nat) (h : b a = .error e) :
    retryFuel b base f a (n + 2)
      = ((retryFuel b base f (a + 1) (n + 1)).1,
          base * f ^ a :: (retryFuel b base f (a + 1) (n + 1)).2.1,
          (retryFuel b base f (a + 1) (n + 1)).2.2 + 1) := by
  rw [retryFuel, h]

/-- The retry loop makes at most `fuel` attempts. -/
theorem retryFuel_count_le {ε α : Type} [Inhabited ε] (b : Nat → Except ε α)
    (base f : ℚ) : ∀ (fuel a : Nat), (retryFuel b base f a fuel).2.2 ≤ fuel := by
  intro fuel
  induction fuel with
  | zero => intro a; simp [retryFuel]
  | succ n ih =>
      intro a
      cases hb : b a with
      | ok v => rw [retryFuel_ok base f n hb]; simp
      | error e =>
          cases n with
          | zero => rw [retryFuel_err_last base f hb]
          | succ n' =>
              rw [retryFuel_err_step base f n' hb]
              simpa using Nat.succ_le_succ (ih (a + 1))

/-- If the first successful attempt in the window is index `k`, the loop
returns its value after `k + 1 - a` attempts, sleeping
`base * f ^ j` after each failed attempt `j < k`. -/
theorem retryFuel_first_ok {ε α : Type} [Inhabited ε] (b : Nat → Except ε α)
    (base f : ℚ) :
    ∀ (fuel a k : Nat) (v : α), a ≤ k → k < a + fuel → b k = .ok v →
      (∀ j, a ≤ j → j < k → isOkE (b j) = false) →
      retryFuel b base f a fuel
        = (.ok v, (List.range (k - a)).map (fun i => base * f ^ (a + i)), k + 1 - a) := by
  intro fuel
  induction fuel with
  | zero => intro a k v hak hk; omega
  | succ n ih =>
      intro a k v hak hk hok hfail
      rcases Nat.eq_or_lt_of_le hak with rfl | hlt
      · rw [retryFuel_ok base f n hok]
        simp [Nat.sub_self]
      · have hfa : isOkE (b a) = false := hfail a le_rfl hlt
        obtain ⟨e, hbe⟩ : ∃ e, b a = .error e := by
          cases hba : b a with
          | ok v' => rw [hba] at hfa; exact absurd hfa (by simp [isOkE])
          | error e => exact ⟨e, rfl⟩
        cases n with
        | zero => omega
        | succ n' =>
            rw [retryFuel_err_step base f n' hbe]
            have hrec := ih (a + 1) k v hlt (by omega) hok
              (fun j hj hjk => hfail j (by omega) hjk)
            rw [hrec]
            have hk' : k - a = (k - (a + 1)) + 1 := by omega
            have hmap : List.map ((fun i => base * f ^ (a + i)) ∘ Nat.succ)
                (List.range (k - (a + 1)))
                = List.map (fun i => base * f ^ (a + 1 + i)) (List.range (k - (a + 1))) := by
              refine List.map_congr_left ?_
              intro i _
              show base * f ^ (a + (i + 1)) = base * f ^ (a + 1 + i)
              rw [show a + (i + 1) = a + 1 + i from by omega]
            rw [hk', List.range_succ_eq_map, List.map_cons, List.map_map, hmap]
            simp only [Nat.add_zero]
            rw [show k + 1 - (a + 1) + 1 = k + 1 - a from by omega]

/-- If every attempt in the window fails, the loop exhausts the window and
returns the error of the final attempt, having slept after every attempt
but the last. -/
theorem retryFuel_all_fail {ε α : Type} [Inhabited ε] (b : Nat → Except ε α)
    (base f : ℚ) :
    ∀ (fuel a : Nat), 0 < fuel →
      (∀ j, a ≤ j → j < a + fuel → isOkE (b j) = false) →
      retryFuel b base f a fuel
        = (b (a + fuel - 1), (List.range (fuel - 1)).map (fun i => base * f ^ (a + i)),
            fuel) := by
  intro fuel
  induction fuel with
  | zero => intro a h; omega
  | succ n ih =>
      intro a _ hfail
      have hfa : isOkE (b a) = false := hfail a le_rfl (by omega)
      obtain ⟨e, hbe⟩ : ∃ e, b a = .error e := by
        cases hba : b a with
        | ok v' => rw [hba] at hfa; exact absurd hfa (by simp [isOkE])
        | error e => exact ⟨e, rfl⟩
      cases n with
      | zero => rw [retryFuel_err_last base f hbe]; simp [hbe]
      | succ n' =>
          rw [retryFuel_err_step base f n' hbe]
          have hrec := ih (a + 1) (by omega) (fun j hj hjk => hfail j (by omega) (by omega))
          rw [hrec]
          have h1 : a + 1 + (n' + 1) - 1 = a + (n' + 1 + 1) - 1 := by omega
          have hmap : List.map ((fun i => base * f ^ (a + i)) ∘ Nat.succ)
              (List.range n')
              = List.map (fun i => base * f ^ (a + 1 + i)) (List.range n') := by
            refine List.map_congr_left ?_
            intro i _
            show base * f ^ (a + (i + 1)) = base * f ^ (a + 1 + i)
            rw [show a + (i + 1) = a + 1 + i from by omega]
          rw [h1, Nat.add_sub_cancel, Nat.add_sub_cancel, List.range_succ_eq_map,
            List.map_cons, List.map_map, hmap]
          simp only [Nat.add_zero]

/-- If the loop returns an error, every attempt in its window failed. -/
theorem retryFuel_error_all_fail {ε α : Type} [Inhabited ε] (b : Nat → Except ε α)
    (base f : ℚ) :
    ∀ (fuel a : Nat) (e : ε), (retryFuel b base f a fuel).1 = .error e →
      ∀ j, a ≤ j → j < a + fuel → isOkE (b j) = false := by
  intro fuel
  induction fuel with
  | zero => intro a e _ j hj hjk; omega
  | succ n ih =>
      intro a e herr j hj hjk
      cases hba : b a with
      | ok v =>
          rw [retryFuel_ok base f n hba] at herr
          exact absurd herr (by simp)
      | error e' =>
          cases n with
          | zero =>
              have : j = a := by omega
              simp [this, isOkE, hba]
          | succ n' =>
              rw [retryFuel_err_step base f n' hba] at herr
              rcases Nat.eq_or_lt_of_le hj with rfl | hlt
              · simp [isOkE, hba]
              · exact ih (a + 1) e herr j hlt (by omega)

/-- The batch is pointwise: slot `i` holds the processed task of name `i`. -/
theorem batch_eq_map (mr : Nat) (env : String → TaskBehavior) (names : List String) :
    batch_call_view_functions mr env names
      = names.map (fun n => postProcessTask n (runTask mr (env n) n)) := by
  unfold batch_call_view_functions
  rw [List.zipWith_map_right, List.zipWith_same]

/-- `call_view_function` always reports the requested name. -/
theorem call_view_function_name (mr : Nat) (fb : FuncBehavior) (name : String) :
    (call_view_function mr fb name).function_name = name := by
  cases fb with
  | notFound => rfl
  | callable attempts =>
      cases h : (retry_with_backoff attempts mr 1 2).1 with
      | ok v => simp [call_view_function, h]
      | error e => rcases e with m | m | m <;> simp [call_view_function, h]

/-- A callable name yields a success outcome exactly when the retry budget
reaches a successful attempt. -/
theorem call_view_function_status_iff (mr : Nat) (attempts : Nat → Except PyExn Value)
    (name : String) :
    (call_view_function mr (.callable attempts) name).status = "success"
      ↔ isOkE (retry_with_backoff attempts mr 1 2).1 = true := by
  cases h : (retry_with_backoff attempts mr 1 2).1 with
  | ok v => simp [call_view_function, h, isOkE]
  | error e => rcases e with m | m | m <;> simp [call_view_function, h, isOkE]

/-- `Char.ofNat` at a scalar value below the surrogate range round-trips
through `toNat`. -/
theorem toNat_ofNat_valid (n : Nat) (h : n < 55296) : (Char.ofNat n).toNat = n := by
  have hv : n.isValidChar := Or.inl h
  rw [Char.ofNat, dif_pos hv]
  rfl

/-- Lowercasing a hex character yields a lowercase hex character. -/
theorem hexLower_toLower (c : Char) (h : isHexChar c = true) :
    isHexLower (Char.toLower c) = true := by
  simp only [isHexChar, Bool.or_eq_true, Bool.and_eq_true, decide_eq_true_eq] at h
  simp only [Char.toLower]
  by_cases hc : c.toNat ≥ 65 ∧ c.toNat ≤ 90
  · rw [if_pos hc]
    have h1 : (Char.ofNat (c.toNat + 32)).toNat = c.toNat + 32 :=
      toNat_ofNat_valid _ (by omega)
    simp only [isHexLower, h1, Bool.or_eq_true, Bool.and_eq_true, decide_eq_true_eq]
    omega
  · rw [if_neg hc]
    simp only [isHexLower, Bool.or_eq_true, Bool.and_eq_true, decide_eq_true_eq]
    omega

/-- Lowercase hex characters are fixed by `Char.toLower`. -/
theorem toLower_fixes_hexLower (c : Char) (h : isHexLower c = true) :
    Char.toLower c = c := by
  simp only [isHexLower, Bool.or_eq_true, Bool.and_eq_true, decide_eq_true_eq] at h
  simp only [Char.toLower]
  rw [if_neg (by omega)]

/-- Uppercasing a lowercase hex character yields a hex character. -/
theorem hex_toUpper (c : Char) (h : isHexLower c = true) :
    isHexChar (Char.toUpper c) = true := by
  simp only [isHexLower, Bool.or_eq_true, Bool.and_eq_true, decide_eq_true_eq] at h
  simp only [Char.toUpper]
  by_cases hc : c.toNat ≥ 97 ∧ c.toNat ≤ 122
  · rw [if_pos hc]
    have h1 : (Char.ofNat (c.toNat - 32)).toNat = c.toNat - 32 :=
      toNat_ofNat_valid _ (by omega)
    simp only [isHexChar, h1, Bool.or_eq_true, Bool.and_eq_true, decide_eq_true_eq]
    omega
  · rw [if_neg hc]
    simp only [isHexChar, Bool.or_eq_true, Bool.and_eq_true, decide_eq_true_eq]
    omega

/-- Lowercase hex characters are pure: lowering after raising restores
them. -/
theorem toLower_toUpper_hexLower (c : Char) (h : isHexLower c = true) :
    Char.toLower (Char.toUpper c) = c := by
  simp only [isHexLower, Bool.or_eq_true, Bool.and_eq_true, decide_eq_true_eq] at h
  simp only [Char.toUpper]
  by_cases hc : c.toNat ≥ 97 ∧ c.toNat ≤ 122
  · rw [if_pos hc]
    have h1 : (Char.ofNat (c.toNat - 32)).toNat = c.toNat - 32 :=
      toNat_ofNat_valid _ (by omega)
    simp only [Char.toLower, h1]
    rw [if_pos (by omega)]
    rw [show c.toNat - 32 + 32 = c.toNat from by omega, Char.ofNat_toNat]
  · rw [if_neg hc]
    exact toLower_fixes_hexLower c (by
      simp only [isHexLower, Bool.or_eq_true, Bool.and_eq_true, decide_eq_true_eq]
      omega)

/-- A lowercase hex character is a hex character. -/
theorem isHexChar_of_isHexLower (c : Char) (h : isHexLower c = true) :
    isHexChar c = true := by
  simp only [isHexLower, Bool.or_eq_true, Bool.and_eq_true, decide_eq_true_eq] at h
  simp only [isHexChar, Bool.or_eq_true, Bool.and_eq_true, decide_eq_true_eq]
  omega

/-- `encodeBody` preserves length. -/
theorem encodeBody_length (hash : List Char → Nat → Nat) (body : List Char) :
    ∀ (i : Nat) (l : List Char), (encodeBody hash body i l).length = l.length := by
  intro i l
  induction l generalizing i with
  | nil => rfl
  | cons c rest ih => simp [encodeBody, ih]

/-- `encodeBody` produces hex characters from lowercase hex characters. -/
theorem encodeBody_hex (hash : List Char → Nat → Nat) (body : List Char) :
    ∀ (i : Nat) (l : List Char), (∀ c ∈ l, isHexLower c = true) →
      ∀ c ∈ encodeBody hash body i l, isHexChar c = true := by
  intro i l
  induction l generalizing i with
  | nil => intro _ c hc; cases hc
  | cons d rest ih =>
      intro hl c hc
      rcases List.mem_cons.mp hc with rfl | hmem
      · have hd : isHexLower d = true := hl d (List.mem_cons_self d rest)
        by_cases hp : 7 < hash body i
        · simpa [encodeBody, hp] using hex_toUpper d hd
        · simpa [encodeBody, hp] using isHexChar_of_isHexLower d hd
      · exact ih (i + 1) (fun c' hc' => hl c' (List.mem_cons_of_mem d hc')) c hmem

/-- Lowercasing undoes `encodeBody` on lowercase hex input. -/
theorem encodeBody_toLower (hash : List Char → Nat → Nat) (body : List Char) :
    ∀ (i : Nat) (l : List Char), (∀ c ∈ l, isHexLower c = true) →
      (encodeBody hash body i l).map Char.toLower = l := by
  intro i l
  induction l generalizing i with
  | nil => intro _; rfl
  | cons d rest ih =>
      intro hl
      have hd : isHexLower d = true := hl d (List.mem_cons_self d rest)
      have htail := ih (i + 1) (fun c' hc' => hl c' (List.mem_cons_of_mem d hc'))
      by_cases hp : 7 < hash body i
      · simp [encodeBody, hp, htail, toLower_toUpper_hexLower d hd]
      · simp [encodeBody, hp, htail, toLower_fixes_hexLower d hd]

/-- A successful name extraction has one name per entry. -/
theorem getNames_length :
    ∀ (l : List AbiEntry) (ns : List String), getNames l = some ns → ns.length = l.length := by
  intro l
  induction l with
  | nil => intro ns h; cases h; rfl
  | cons f rest ih =>
      intro ns h
      cases hf : f.name? with
      | none => rw [getNames, hf] at h; cases h
      | some n =>
          cases hr : getNames rest with
          | none => rw [getNames, hf, hr] at h; cases h
          | some ns' =>
              rw [getNames, hf, hr] at h
              cases h
              simp [ih ns' hr]

/-! ## Claims -/

/-- **C8** (code evaluation at the failing input): the validator accepts
`"0x"` + 40 hex digits + `"\n"` — 43 characters — because Python's `$`
also matches just before a trailing newline, while the claimed predicate
(exactly `0x` + 40 hex characters) rejects it. -/
theorem C8_trailing_newline_failing_input :
    is_valid_ethereum_address (String.mk ('0' :: 'x' :: (List.replicate 40 'a' ++ ['\n']))) = true
    ∧ specValidAddress (String.mk ('0' :: 'x' :: (List.replicate 40 'a' ++ ['\n']))) = false
    ∧ (String.mk ('0' :: 'x' :: (List.replicate 40 'a' ++ ['\n']))).data.length = 43 := by
  decide

/-- **C6**: `extract_view_functions` returns exactly the ABI entries whose
kind is `function`, whose state mutability is `view` or `pure` and whose
input list is empty (a missing `inputs` key counting as empty), in ABI
declaration order (the result is a sublist of the input); every other
entry is excluded. -/
theorem C6_extract_view_functions (abi : List AbiEntry) :
    (extract_view_functions abi).Sublist abi
    ∧ extract_view_functions abi =
        abi.filter (fun e => e.type? == some "function"
          && (e.stateMutability? == some "view" || e.stateMutability? == some "pure")
          && (e.inputs?.getD []).length == 0)
    ∧ (∀ e, e ∈ extract_view_functions abi ↔
        e ∈ abi ∧ e.type? = some "function"
          ∧ (e.stateMutability? = some "view" ∨ e.stateMutability? = some "pure")
          ∧ e.inputs?.getD [] = []) := by
  refine ⟨?_, ?_, ?_⟩
  · rw [extract_eq_filter]; exact List.filter_sublist abi
  · rw [extract_eq_filter]; rfl
  · intro e
    rw [extract_eq_filter, List.mem_filter]
    simp [isInvocableEntry, List.length_eq_zero, and_assoc]

/-- **C5** (counterexample): a contract-logic failure produces an outcome
whose status is the string `"error"`, which is neither `"success"` nor
`"failed"` — the claim's status set `{success, failed}` does not match the
code of `call_view_function`. -/
theorem C5_status_error_counterexample :
    (call_view_function 3 (.callable fun _ => .error (.contractLogic "revert")) "foo").status
      = "error"
    ∧ ¬ ((call_view_function 3 (.callable fun _ => .error (.contractLogic "revert")) "foo").status
           = "success"
         ∨ (call_view_function 3 (.callable fun _ => .error (.contractLogic "revert")) "foo").status
           = "failed") := by
  decide

/-- **C5** (amended): every outcome produced by `call_view_function` —
the function-not-found case and the three classified failure causes
included — carries status `"success"` or `"error"`; the report layer then
relabels every non-success outcome with status `"failed"` (and keeps
`"success"` on the others). -/
theorem C5_status_values :
    (∀ (mr : Nat) (fb : FuncBehavior) (name : String),
        (call_view_function mr fb name).status = "success"
        ∨ (call_view_function mr fb name).status = "error")
    ∧ (∀ (hash : List Char → Nat → Nat) (l : List (AbiEntry × CallOutcome)),
        ((classifyAll hash l).2.all fun e => e.status == "failed")
        ∧ ((classifyAll hash l).1.all fun e => e.status == "success")) := by
  constructor
  · intro mr fb name
    match fb with
    | .notFound => exact Or.inr rfl
    | .callable attempts =>
        cases h : (retry_with_backoff attempts mr 1 2).1 with
        | ok v => exact Or.inl (by simp [call_view_function, h])
        | error e =>
            rcases e with m | m | m <;> exact Or.inr (by simp [call_view_function, h])
  · exact classifyAll_status

/-- **C2** (counterexample): on the invalid address `"not-an-address"`
with a fresh analyzer whose connection check fails, `analyze_contract`
returns the initialization-failure reason — not one naming the invalid
address format — and has already performed a network liveness probe:
the connection-initialization gate runs *before* address validation. -/
theorem C2_init_gate_first_counterexample :
    is_valid_ethereum_address "not-an-address" = false
    ∧ (analyze_contract (fun _ _ => 0)
        { initialized := false, connectionOk := false, isContract := true,
          abi? := none, instanceOk := true, max_retries := 3,
          callEnv := fun _ => .normal .notFound, contractName? := none }
        "not-an-address").1
      = .ok { status := "error", error? := some "分析器初始化失败" }
    ∧ ("分析器初始化失败" : String) ≠ "无效的以太坊地址格式: not-an-address"
    ∧ (analyze_contract (fun _ _ => 0)
        { initialized := false, connectionOk := false, isContract := true,
          abi? := none, instanceOk := true, max_retries := 3,
          callEnv := fun _ => .normal .notFound, contractName? := none }
        "not-an-address").2 ≠ [] := by
  refine ⟨by decide, rfl, by decide, by decide⟩

/-- **C2** (amended): the initialization gate — which performs a network
liveness probe unless a previous call already initialized the analyzer —
runs first; once it passes, address-format validation is the next gate,
and every input the validator rejects yields status `error` with a reason
naming the invalid address format, with no ChainClient or MetadataClient
operation beyond the (possibly cached) connection check. -/
theorem C2_invalid_address_after_init (hash : List Char → Nat → Nat)
    (env : AnalyzerEnv) (addr : String)
    (hinit : env.initialized = true ∨ env.connectionOk = true)
    (hbad : is_valid_ethereum_address addr = false) :
    (analyze_contract hash env addr).1
      = .ok { status := "error", error? := some ("无效的以太坊地址格式: " ++ addr) }
    ∧ (analyze_contract hash env addr).2
      = (if env.initialized then [] else [NetCall.verifyConnection]) := by
  rcases hinit with h | h <;>
    constructor <;> simp [analyze_contract, h, hbad]

/-- **C2** (witness): an already-initialized analyzer rejects
`"not-an-address"` with the invalid-address reason and performs no
external operation. -/
theorem C2_invalid_address_after_init_witness :
    (analyze_contract (fun _ _ => 0)
        { initialized := true, connectionOk := true, isContract := true,
          abi? := none, instanceOk := true, max_retries := 3,
          callEnv := fun _ => .normal .notFound, contractName? := none }
        "not-an-address").1
      = .ok { status := "error",
              error? := some ("无效的以太坊地址格式: " ++ "not-an-address") }
    ∧ (analyze_contract (fun _ _ => 0)
        { initialized := true, connectionOk := true, isContract := true,
          abi? := none, instanceOk := true, max_retries := 3,
          callEnv := fun _ => .normal .notFound, contractName? := none }
        "not-an-address").2
      = (if ({ initialized := true, connectionOk := true, isContract := true,
               abi? := none, instanceOk := true, max_retries := 3,
               callEnv := fun _ => .normal .notFound,
               contractName? := none } : AnalyzerEnv).initialized
         then ([] : List NetCall) else [NetCall.verifyConnection]) := by
  exact C2_invalid_address_after_init (fun _ _ => 0)
    { initialized := true, connectionOk := true, isContract := true,
      abi? := none, instanceOk := true, max_retries := 3,
      callEnv := fun _ => .normal .notFound, contractName? := none }
    "not-an-address" (Or.inl rfl) (by decide)

/-- **C9**: `to_checksum_address` is total — when the underlying checksum
computation fails (an invalid address raises inside
`Web3.to_checksum_address`) the input is returned unchanged instead of
propagating the exception — and idempotent for every input string and
every digest function. -/
theorem C9_normalize_total_idempotent (hash : List Char → Nat → Nat) (s : String) :
    to_checksum_address hash (to_checksum_address hash s) = to_checksum_address hash s
    ∧ (web3ChecksumAddress hash s.data = none → to_checksum_address hash s = s) := by
  constructor
  · by_cases hv : isAddrLike s.data
    · have hhex : ∀ c ∈ bodyChars s.data, isHexChar c = true := by
        have := hv
        simp only [isAddrLike, Bool.and_eq_true, List.all_eq_true] at this
        exact this.2
      have hlower : ∀ c ∈ (bodyChars s.data).map Char.toLower, isHexLower c = true := by
        intro c hc
        obtain ⟨d, hd, rfl⟩ := List.mem_map.mp hc
        exact hexLower_toLower d (hhex d hd)
      have hw1 : web3ChecksumAddress hash s.data
          = some ('0' :: 'x' ::
              encodeBody hash ((bodyChars s.data).map Char.toLower) 0
                ((bodyChars s.data).map Char.toLower)) := by
        simp [web3ChecksumAddress, hv]
      have h1 : to_checksum_address hash s
          = String.mk ('0' :: 'x' ::
              encodeBody hash ((bodyChars s.data).map Char.toLower) 0
                ((bodyChars s.data).map Char.toLower)) := by
        simp [to_checksum_address, hw1]
      set body := (bodyChars s.data).map Char.toLower with hbody
      have hdata : (String.mk ('0' :: 'x' :: encodeBody hash body 0 body)).data
          = '0' :: 'x' :: encodeBody hash body 0 body := rfl
      have hbc : bodyChars ('0' :: 'x' :: encodeBody hash body 0 body)
          = encodeBody hash body 0 body := rfl
      have hlen40 : (bodyChars s.data).length = 40 := by
        have := hv
        simp only [isAddrLike, Bool.and_eq_true, beq_iff_eq] at this
        exact this.1
      have hv2 : isAddrLike ('0' :: 'x' :: encodeBody hash body 0 body) = true := by
        simp only [isAddrLike, hbc, Bool.and_eq_true, beq_iff_eq, List.all_eq_true]
        constructor
        · rw [encodeBody_length]
          simp [hbody, hlen40]
        · intro c hc
          exact encodeBody_hex hash body 0 body hlower c hc
      have hback : (bodyChars ('0' :: 'x' :: encodeBody hash body 0 body)).map Char.toLower
          = body := by
        rw [hbc]
        exact encodeBody_toLower hash body 0 body hlower
      have hw2 : web3ChecksumAddress hash ('0' :: 'x' :: encodeBody hash body 0 body)
          = some ('0' :: 'x' :: encodeBody hash body 0 body) := by
        simp only [web3ChecksumAddress, hv2, if_true, hback]
      rw [h1]
      simp [to_checksum_address, hdata, hw2]
    · have hw : web3ChecksumAddress hash s.data = none := by
        simp [web3ChecksumAddress, hv]
      have hfix : to_checksum_address hash s = s := by simp [to_checksum_address, hw]
      rw [hfix]
      exact hfix
  · intro h
    simp [to_checksum_address, h]

/-- **C9** (witness): at the digest oracle constantly `0` and the invalid
input `"zzz"`, normalization returns the input unchanged and is idempotent
there. -/
theorem C9_normalize_witness :
    to_checksum_address (fun _ _ => 0) (to_checksum_address (fun _ _ => 0) "zzz")
        = to_checksum_address (fun _ _ => 0) "zzz"
    ∧ to_checksum_address (fun _ _ => 0) "zzz" = "zzz" := by
  have h := C9_normalize_total_idempotent (fun _ _ => 0) "zzz"
  exact ⟨h.1, h.2 (by decide)⟩

/-- **C1**: `batch_call_view_functions` returns exactly one outcome per
input name, in input order (slot `i` carries name `i` and is the processed
task of name `i` alone); the outcome at a position depends only on that
name's behaviour, so no name's failure alters any sibling slot; and slot
`i` is marked success exactly when its own behaviour succeeds — any
failure (missing function, classified exception, escaping exception)
yields a failed outcome at that position only. -/
theorem C1_batch_isolation (mr : Nat) (env : String → TaskBehavior)
    (names : List String) :
    (batch_call_view_functions mr env names).length = names.length
    ∧ (∀ i, i < names.length →
        (batch_call_view_functions mr env names)[i]?
          = some (postProcessTask (names.getD i "")
              (runTask mr (env (names.getD i "")) (names.getD i ""))))
    ∧ (∀ i, i < names.length → ∀ env₂ : String → TaskBehavior,
        env₂ (names.getD i "") = env (names.getD i "") →
        (batch_call_view_functions mr env₂ names)[i]?
          = (batch_call_view_functions mr env names)[i]?)
    ∧ (∀ i, i < names.length → ∃ o,
        (batch_call_view_functions mr env names)[i]? = some o
        ∧ o.function_name = names.getD i ""
        ∧ (o.status = "success" ↔ behaviorSucceeds mr (env (names.getD i "")) = true)) := by
  have hpt : ∀ (e : String → TaskBehavior) i, i < names.length →
      (batch_call_view_functions mr e names)[i]?
        = some (postProcessTask (names.getD i "")
            (runTask mr (e (names.getD i "")) (names.getD i ""))) := by
    intro e i hi
    rw [batch_eq_map, List.getElem?_map, List.getElem?_eq_getElem hi]
    rw [List.getD_eq_getElem?_getD, List.getElem?_eq_getElem hi]
    rfl
  refine ⟨by rw [batch_eq_map]; exact List.length_map _ _, hpt env, ?_, ?_⟩
  · intro i hi env₂ henv
    rw [hpt env i hi, hpt env₂ i hi, henv]
  · intro i hi
    refine ⟨_, hpt env i hi, ?_, ?_⟩
    · cases h : env (names.getD i "") with
      | escape m => simp [postProcessTask, runTask]
      | normal fb => simp [postProcessTask, runTask, call_view_function_name]
    · cases h : env (names.getD i "") with
      | escape m => simp [postProcessTask, runTask, behaviorSucceeds]
      | normal fb =>
          cases fb with
          | notFound => simp [postProcessTask, runTask, behaviorSucceeds, call_view_function]
          | callable attempts =>
              simpa [postProcessTask, runTask, behaviorSucceeds]
                using call_view_function_status_iff mr attempts (names.getD i "")

/-- **C1** (witness): a three-name batch where the middle name's
invocation raises an exception that escapes the task still yields three
outcomes, and slot 1 carries name `b` with a non-success status. -/
theorem C1_batch_isolation_witness :
    (batch_call_view_functions 3
        (fun n => if n = "b" then .escape "kaboom"
                  else .normal (.callable fun _ => .ok (.int 1)))
        ["a", "b", "c"]).length = 3
    ∧ ∃ o, (batch_call_view_functions 3
        (fun n => if n = "b" then .escape "kaboom"
                  else .normal (.callable fun _ => .ok (.int 1)))
        ["a", "b", "c"])[1]? = some o
        ∧ o.function_name = "b"
        ∧ (o.status = "success"
            ↔ behaviorSucceeds 3
                ((fun n => if n = "b" then TaskBehavior.escape "kaboom"
                           else .normal (.callable fun _ => .ok (.int 1))) "b") = true) := by
  have h := C1_batch_isolation 3
    (fun n => if n = "b" then .escape "kaboom"
              else .normal (.callable fun _ => .ok (.int 1)))
    ["a", "b", "c"]
  refine ⟨h.1, ?_⟩
  simpa using h.2.2.2 1 (by decide)

/-- **C4**: `retry_with_backoff` makes at most `max_retries + 1` attempts
(the first immediate); if the first successful attempt is `k` within the
budget it returns that success after `k + 1` attempts, having slept
`base_delay * backoff_factor ^ j` after each failed attempt `j < k`; if
every attempt in the budget fails it re-raises the exception of the final
attempt (`b max_retries`, not an earlier one) after `max_retries + 1`
attempts; and an error result implies every attempt failed — failure is
observed only through budget exhaustion. -/
theorem C4_retry_with_backoff {ε α : Type} [Inhabited ε] (b : Nat → Except ε α)
    (max_retries : Nat) (base f : ℚ) :
    (retry_with_backoff b max_retries base f).2.2 ≤ max_retries + 1
    ∧ (∀ (k : Nat) (v : α), k ≤ max_retries → b k = .ok v →
        (∀ j, j < k → isOkE (b j) = false) →
        retry_with_backoff b max_retries base f
          = (.ok v, (List.range k).map (fun i => base * f ^ i), k + 1))
    ∧ ((∀ j, j ≤ max_retries → isOkE (b j) = false) →
        retry_with_backoff b max_retries base f
          = (b max_retries, (List.range max_retries).map (fun i => base * f ^ i),
              max_retries + 1))
    ∧ (∀ e, (retry_with_backoff b max_retries base f).1 = .error e →
        ∀ j, j ≤ max_retries → isOkE (b j) = false) := by
  refine ⟨retryFuel_count_le b base f (max_retries + 1) 0, ?_, ?_, ?_⟩
  · intro k v hk hok hfail
    have h := retryFuel_first_ok b base f (max_retries + 1) 0 k v (Nat.zero_le k)
      (by omega) hok (fun j _ hjk => hfail j hjk)
    rw [retry_with_backoff, h]
    simp
  · intro hfail
    have h := retryFuel_all_fail b base f (max_retries + 1) 0 (by omega)
      (fun j _ hj => hfail j (by omega))
    rw [retry_with_backoff, h]
    simp
  · intro e herr j hj
    exact retryFuel_error_all_fail b base f (max_retries + 1) 0 e herr j (Nat.zero_le j)
      (by omega)

/-- **C4** (witness): an operation that fails on attempts 0 and 1 and
succeeds on attempt 2, run with the default budget `max_retries = 3`,
`base_delay = 1`, `backoff_factor = 2`, returns the success after three
attempts with the sleep schedule `[1, 2]`. -/
theorem C4_retry_with_backoff_witness :
    retry_with_backoff
        (fun i => if i < 2 then (.error "boom" : Except String Nat) else .ok 42) 3 1 2
      = (.ok 42, [1, 2], 3) := by
  have h := (C4_retry_with_backoff
      (fun i => if i < 2 then (.error "boom" : Except String Nat) else .ok 42) 3 1 2).2.1
      2 42 (by decide) rfl (by decide)
  rw [h]
  norm_num [List.range_succ]

/-- **C7**: a successful call whose inferred output type begins with
`uint` and whose integer value exceeds `10^15` gets
`format_large_number value` attached as its formatted value; the formatter
scales by `10^18` with suffix `Ether` at values ≥ `10^18`, by `10^15` with
suffix `milli-Ether` below that, supports a `micro-Ether` tier at
≥ `10^12`, uses the raw integer string below `10^12`, and maps
`10^21` to `"1000.000000 Ether"`. -/
theorem C7_uint_scaling (hash : List Char → Nat → Nat) (f : AbiEntry)
    (r : CallOutcome) :
    (pyStartsWith (get_output_type f) "uint" = true →
      ∀ n : Int, r.result? = some (.int n) → 10 ^ 15 < n →
        (classifySuccess hash f r).formatted_value? = some (format_large_number n))
    ∧ (∀ v : Int, 10 ^ 18 ≤ v →
        format_large_number v = fixed6 v.toNat (10 ^ 18) ++ " Ether")
    ∧ (∀ v : Int, 10 ^ 15 ≤ v → v < 10 ^ 18 →
        format_large_number v = fixed6 v.toNat (10 ^ 15) ++ " milli-Ether")
    ∧ (∀ v : Int, 10 ^ 12 ≤ v → v < 10 ^ 15 →
        format_large_number v = fixed6 v.toNat (10 ^ 12) ++ " micro-Ether")
    ∧ (∀ v : Int, v < 10 ^ 12 → format_large_number v = toString v)
    ∧ format_large_number (10 ^ 21) = "1000.000000 Ether" := by
  refine ⟨?_, ?_, ?_, ?_, ?_, by decide⟩
  · intro hstart n hr hn
    norm_num at hn
    simp [classifySuccess, hr, hstart, hn]
  · intro v hv
    rw [format_large_number, if_pos hv]
  · intro v hv hv'
    rw [format_large_number, if_neg (by omega), if_pos hv]
  · intro v hv hv'
    rw [format_large_number, if_neg (by omega), if_neg (by omega), if_pos hv]
  · intro v hv
    rw [format_large_number, if_neg (by omega), if_neg (by omega), if_neg (by omega)]

/-- **C7** (witness): a `totalSupply() -> uint256` call returning
`10^21` is classified with formatted value `"1000.000000 Ether"`. -/
theorem C7_uint_scaling_witness :
    (classifySuccess (fun _ _ => 0)
        { type? := some "function", name? := some "totalSupply",
          stateMutability? := some "view", inputs? := some [],
          outputs? := some [{ type? := some "uint256" }] }
        { function_name := "totalSupply", status := "success",
          result? := some (.int (10 ^ 21)) }).formatted_value?
      = some "1000.000000 Ether" := by
  have h := C7_uint_scaling (fun _ _ => 0)
    { type? := some "function", name? := some "totalSupply",
      stateMutability? := some "view", inputs? := some [],
      outputs? := some [{ type? := some "uint256" }] }
    { function_name := "totalSupply", status := "success",
      result? := some (.int (10 ^ 21)) }
  rw [h.1 (by decide) (10 ^ 21) rfl (by decide), h.2.2.2.2.2]

/-- **C3** (counterexample): with an attempt oracle failing once and then
succeeding, `_make_request` produces the event trace
`[acquire, attempt 0, attempt 1]` — two attempts under a single
rate-limiter slot, so a slot is *not* acquired before each retry attempt. -/
theorem C3_single_slot_counterexample :
    (make_request (fun i => if i = 0 then (.error "boom" : Except String Nat) else .ok 7) 3).2
      = [ReqEv.acquire, ReqEv.attempt 0, ReqEv.attempt 1]
    ∧ ((make_request (fun i => if i = 0 then (.error "boom" : Except String Nat) else .ok 7) 3).2.count
         ReqEv.acquire = 1)
    ∧ ¬ (2 ≤ (make_request (fun i => if i = 0 then (.error "boom" : Except String Nat) else .ok 7) 3).2.count
           ReqEv.acquire) := by
  decide

/-- **C3** (amended): every `_make_request` call acquires exactly one
rate-limiter slot, before its first attempt; all retry attempts of the
request run under that single acquisition. -/
theorem C3_one_acquire_first {α : Type} (b : Nat → Except String α) (mr : Nat) :
    (make_request b mr).2.count ReqEv.acquire = 1
    ∧ (make_request b mr).2.head? = some ReqEv.acquire := by
  refine ⟨?_, rfl⟩
  have h : (attemptEvents (retry_with_backoff b mr 1 2).2.2).count ReqEv.acquire = 0 := by
    simp only [attemptEvents, List.count_eq_zero, List.mem_map]
    rintro ⟨n, -, h⟩
    exact ReqEv.noConfusion h
  simp [make_request, List.count_cons, h]

/-- **C10**: every success report of `analyze_contract` is internally
consistent — `total_view_functions` equals `successful_calls` plus
`failed_calls` (the batch returns exactly one outcome per invocable
function), `successful_functions` has exactly `successful_calls` entries,
and `failed_functions` is `None` rather than an empty list whenever no
call failed (and otherwise a non-empty list of `failed_calls` entries). -/
theorem C10_success_report_consistent (hash : List Char → Nat → Nat)
    (env : AnalyzerEnv) (addr : String) (r : Report)
    (h : (analyze_contract hash env addr).1 = .ok r) (hs : r.status = "success") :
    ∃ sm, r.analysis_summary? = some sm
      ∧ sm.total_view_functions = sm.successful_calls + sm.failed_calls
      ∧ (∃ sl, r.successful_functions? = some sl ∧ sl.length = sm.successful_calls)
      ∧ (sm.failed_calls = 0 → r.failed_functions? = none)
      ∧ (∀ fl, r.failed_functions? = some fl →
            fl.length = sm.failed_calls ∧ fl ≠ []) := by
  revert h
  unfold analyze_contract
  dsimp only
  repeat' split
  all_goals intro h
  all_goals try exact Except.noConfusion h
  all_goals obtain rfl : r = _ := (Except.ok.inj h).symm
  all_goals try simp at hs
  all_goals rename_i abi habi hne hinst xopt names hnames hemp hinit
  all_goals refine ⟨_, rfl, ?_, ⟨_, rfl, rfl⟩, ?_, ?_⟩
  all_goals first
    | (intro fl hfl; cases hfl; done)
    | (intro fl hfl; cases hfl; exact ⟨rfl, by simpa using hemp⟩)
    | (intro h0; exact rfl)
    | (intro h0; exact absurd (List.isEmpty_iff.mpr (List.length_eq_zero.mp h0)) hemp)
    | (have hbatch : (batch_call_view_functions env.max_retries env.callEnv names).length
          = names.length := by rw [batch_eq_map]; exact List.length_map _ _
       have hn := getNames_length (extract_view_functions abi) names hnames
       have hlen := classifyAll_length hash
         ((extract_view_functions abi).zip
           (batch_call_view_functions env.max_retries env.callEnv names))
       rw [List.length_zip, hbatch, hn, Nat.min_self] at hlen
       exact hlen.symm)

/-- **C10** (witness): the sample one-function contract run produces the
success report `sampleReport`, whose summary is internally consistent. -/
theorem C10_success_report_consistent_witness :
    ∃ sm, sampleReport.analysis_summary? = some sm
      ∧ sm.total_view_functions = sm.successful_calls + sm.failed_calls
      ∧ (∃ sl, sampleReport.successful_functions? = some sl
          ∧ sl.length = sm.successful_calls)
      ∧ (sm.failed_calls = 0 → sampleReport.failed_functions? = none)
      ∧ (∀ fl, sampleReport.failed_functions? = some fl →
            fl.length = sm.failed_calls ∧ fl ≠ []) := by
  exact C10_success_report_consistent (fun _ _ => 0) sampleEnv
    "0xaaaaaaaaaaaaaaaaaaaaaaaaaaaaaaaaaaaaaaaa" sampleReport rfl rfl


end ContractInspector
